import Mathlib

/-!
Verification development for the `stresstest` package of
kleytonsolinho/golang-stress-test.

The Go source is shallowly embedded: the shared `StressReport` accumulator
becomes a Lean structure, the mutex-serialized merge `updateReport` becomes a
pure function from a report and one transport outcome to `Except GoPanic
StressReport` (the `Except.error` case models a Go `panic`, which carries no
updated report because the panic fires before any field assignment), and a run
is the left fold of that merge over a linearized list of outcomes (the mutex
serializes merges, so every interleaving is some list order). Go `int` and
`int64` values stay well inside 64 bits here (counters bounded by the request
count, elapsed milliseconds), so they are modelled as `Nat` / `Int` without
wrap-around. `float64` finalization arithmetic is modelled exactly over `ℚ`.
-/

namespace StressTest

/-- Status-code histogram, Go type `MapStatusRequests map[int]int`: modelled as
an association list from status code to count (Go maps have unique keys; the
embedding updates the first matching entry and appends fresh keys). -/
abbrev MapStatusRequests : Type := List (Int × Nat)

/-- Go struct `StressReport` (stresstest.go lines 14-27). Counters are `Nat`
(Go `int`, only ever incremented from 0), times `FastestTime`/`SlowestTime`
are `Int` (Go `int64` milliseconds), and the `float64` derived fields are
exact rationals. -/
structure StressReport where
  Requests : Nat
  Failed : Nat
  Succeeded : Nat
  TimedOut : Nat
  TotalTime : ℚ
  AverageTime : ℚ
  FastestTime : Int
  SlowestTime : Int
  PercentageSucceeded : ℚ
  PercentageFailed : ℚ
  PercentageTimedOut : ℚ
  StatusRequests : MapStatusRequests
deriving DecidableEq

/-- Go `NewStressReport` (lines 29-44): every field zero, empty histogram. -/
def NewStressReport : StressReport :=
  { Requests := 0
    Failed := 0
    Succeeded := 0
    TimedOut := 0
    TotalTime := 0
    AverageTime := 0
    FastestTime := 0
    SlowestTime := 0
    PercentageSucceeded := 0
    PercentageFailed := 0
    PercentageTimedOut := 0
    StatusRequests := ([] : List (Int × Nat)) }

/-- The only field of `*http.Response` the program reads is `StatusCode`. -/
structure Response where
  StatusCode : Int
deriving DecidableEq

/-- A Go `error` value as the program observes it: the string returned by
`err.Error()`. -/
structure GoError where
  msg : String
deriving DecidableEq

/-- The two abnormal terminations the embedded code can take: `panicErr` is
the explicit `panic(err)` on a connection-refused error (line 177), and
`nilDeref` is the runtime nil-pointer dereference of `res.StatusCode` when
`res` is nil (possible at line 164 in verbose mode). -/
inductive GoPanic where
  | panicErr (msg : String)
  | nilDeref
deriving DecidableEq

/-- Substring test, modelling Go `strings.Contains(haystack, needle)`. -/
def strContains (haystack needle : String) : Bool :=
  let h := haystack.toList
  let n := needle.toList
  (List.range (h.length + 1)).any (fun i => n == (h.drop i).take n.length)

/-- The message of the Go standard-library sentinel `http.ErrHandlerTimeout`,
which line 179 compares error messages against. -/
def httpErrHandlerTimeoutMsg : String := "http: Handler timeout"

/-- Go map read `m[code]` existence test (the `ok` of `_, ok := m[code]`). -/
def hasKey (m : MapStatusRequests) (code : Int) : Bool :=
  (m : List (Int × Nat)).any (fun p => p.1 == code)

/-- Go map write `m[code] = 0` when the key is absent (line 190): append the
key with count zero, leave the map unchanged when the key exists. -/
def ensureKey (m : MapStatusRequests) (code : Int) : MapStatusRequests :=
  if hasKey m code then m else (m : List (Int × Nat)) ++ [(code, 0)]

/-- Go map increment `m[code]++` (line 192): bump the entry for `code`,
inserting count 1 when the key is absent (Go reads the zero value). -/
def incrKey : List (Int × Nat) → Int → List (Int × Nat)
  | [], code => [(code, 1)]
  | (k, v) :: rest, code =>
      if k == code then (k, v + 1) :: rest else (k, v) :: incrKey rest code

/-- Lines 189-192 of `updateReport`: create-at-zero if first seen, then
increment the bucket of the observed status code. -/
def bumpStatus (m : MapStatusRequests) (code : Int) : MapStatusRequests :=
  incrKey (ensureKey m code) code

/-- Lines 195-203 of `updateReport`: increment `Requests`, then update
`FastestTime` (overwritten when `elapsed` is smaller or when the stored
fastest is still 0) and `SlowestTime` (overwritten when `elapsed` is larger).
-/
def updateTimes (report : StressReport) (elapsed : Int) : StressReport :=
  let report := { report with Requests := report.Requests + 1 }
  let report :=
    if elapsed < report.FastestTime || report.FastestTime == 0 then
      { report with FastestTime := elapsed }
    else report
  if elapsed > report.SlowestTime then
    { report with SlowestTime := elapsed }
  else report

/-- Lines 174-193 of `updateReport`: the error/success classification that
touches the counters and the histogram. A connection-refused error panics
before any field is written; any other error increments `Failed` (and
`TimedOut` first, when the message equals the handler-timeout message); with
no error the status code decides `Succeeded` versus `Failed` and the
histogram bucket is bumped. Reading `res.StatusCode` with a nil response is a
nil dereference. -/
def applyCounters (report : StressReport) (res : Option Response)
    (err : Option GoError) : Except GoPanic StressReport :=
  match err with
  | some e =>
      if strContains e.msg "connection refused" then
        Except.error (GoPanic.panicErr e.msg)
      else
        let report :=
          if e.msg == httpErrHandlerTimeoutMsg then
            { report with TimedOut := report.TimedOut + 1 }
          else report
        Except.ok { report with Failed := report.Failed + 1 }
  | none =>
      match res with
      | none => Except.error GoPanic.nilDeref
      | some r =>
          let report :=
            if r.StatusCode != 200 then
              { report with Failed := report.Failed + 1 }
            else
              { report with Succeeded := report.Succeeded + 1 }
          Except.ok
            { report with
                StatusRequests := bumpStatus report.StatusRequests r.StatusCode }

/-- Go `updateReport` (lines 170-204): classification and counters, then the
always-run `Requests`/fastest/slowest update. The mutex is implicit in the
sequential fold used below. -/
def updateReport (report : StressReport) (res : Option Response)
    (err : Option GoError) (elapsed : Int) : Except GoPanic StressReport :=
  (applyCounters report res err).map (fun r => updateTimes r elapsed)

/-- One transport outcome handed to the merge step: the `(res, err)` pair
returned by `client.Do` plus the measured elapsed milliseconds. -/
structure Outcome where
  res : Option Response
  err : Option GoError
  elapsed : Int
deriving DecidableEq

/-- Go `runRequest` from the `client.Do` call on (lines 158-168): when
verbose, the log line reads `res.StatusCode` before checking `err`, which
dereferences nil when the transport errored; otherwise the outcome is merged
into the report. -/
def runRequest (verbose : Bool) (report : StressReport) (o : Outcome) :
    Except GoPanic StressReport :=
  if verbose && o.res.isNone then
    Except.error GoPanic.nilDeref
  else
    updateReport report o.res o.err o.elapsed

/-- Sequential merge of a linearized list of outcomes (the mutex in
`updateReport` serializes concurrent merges, so every run is some list
order). A panic aborts the fold. -/
def mergeAll (report : StressReport) : List Outcome → Except GoPanic StressReport
  | [] => Except.ok report
  | o :: rest =>
      match updateReport report o.res o.err o.elapsed with
      | Except.error p => Except.error p
      | Except.ok r => mergeAll r rest

/-- Lines 133-137 of `run`: the single-threaded finalization after all
workers join, computing the derived statistics from the raw counters
(`float64` division modelled exactly over `ℚ`). -/
def finalize (report : StressReport) (totalElapsed : ℚ) : StressReport :=
  { report with
      TotalTime := totalElapsed
      AverageTime := totalElapsed / (report.Requests : ℚ)
      PercentageSucceeded := (report.Succeeded : ℚ) / (report.Requests : ℚ) * 100
      PercentageFailed := (report.Failed : ℚ) / (report.Requests : ℚ) * 100
      PercentageTimedOut := (report.TimedOut : ℚ) / (report.Requests : ℚ) * 100 }

/-- Go `run` (lines 103-139) over a linearized outcome list: merge every
outcome, then finalize with the measured wall-clock total. -/
def run (events : List Outcome) (totalElapsed : ℚ) : Except GoPanic StressReport :=
  (mergeAll NewStressReport events).map (fun r => finalize r totalElapsed)

/-- Go `Run` (lines 78-82): calls `run` and returns the literal `nil` error;
the returned pair carries the finalized report and the Go `error` result. -/
def Run (events : List Outcome) (totalElapsed : ℚ) :
    Except GoPanic (StressReport × Option String) :=
  (run events totalElapsed).map (fun r => (r, none))

/-- Lines 108-128 of `run`: the per-worker request assignments, as a list of
request counts. `Concurrency` base workers each receive
`Requests / Concurrency` sequential requests; `Requests % Concurrency` extra
workers receive one request each. -/
def workerAssignments (requests concurrency : Nat) : List Nat :=
  List.replicate concurrency (requests / concurrency) ++
    List.replicate (requests % concurrency) 1

/-- Sum of all histogram bucket counts. -/
def histSum (m : MapStatusRequests) : Nat :=
  ((m : List (Int × Nat)).map Prod.snd).sum

/-! Helper lemmas about one merge step. -/

theorem updateTimes_eq (r : StressReport) (e : Int) :
    updateTimes r e =
      { r with
          Requests := r.Requests + 1
          FastestTime :=
            if e < r.FastestTime || r.FastestTime == 0 then e else r.FastestTime
          SlowestTime := if e > r.SlowestTime then e else r.SlowestTime } := by
  unfold updateTimes
  by_cases h1 : (e < r.FastestTime || r.FastestTime == 0) = true <;>
    by_cases h2 : e > r.SlowestTime <;>
      simp [h1, h2]

theorem histSum_ensureKey (m : MapStatusRequests) (c : Int) :
    histSum (ensureKey m c) = histSum m := by
  unfold ensureKey
  split
  · rfl
  · simp [histSum]

theorem histSum_incrKey (m : List (Int × Nat)) (c : Int) :
    histSum (incrKey m c) = histSum m + 1 := by
  induction m with
  | nil => simp [incrKey, histSum]
  | cons p rest ih =>
      obtain ⟨k, v⟩ := p
      unfold incrKey
      split
      · simp [histSum]
        omega
      · simp [histSum] at ih ⊢
        omega

theorem histSum_bumpStatus (m : MapStatusRequests) (c : Int) :
    histSum (bumpStatus m c) = histSum m + 1 := by
  unfold bumpStatus
  rw [histSum_incrKey, histSum_ensureKey]

theorem updateReport_ok_decomp {R : StressReport} {res : Option Response}
    {err : Option GoError} {el : Int} {R' : StressReport}
    (h : updateReport R res err el = Except.ok R') :
    ∃ M, applyCounters R res err = Except.ok M ∧ R' = updateTimes M el := by
  unfold updateReport at h
  cases hm : applyCounters R res err with
  | error p => rw [hm] at h; simp [Except.map] at h
  | ok M =>
      rw [hm] at h
      simp [Except.map] at h
      exact ⟨M, rfl, h.symm⟩

theorem applyCounters_ok_spec {R : StressReport} {res : Option Response}
    {err : Option GoError} {M : StressReport}
    (h : applyCounters R res err = Except.ok M) :
    M.Requests = R.Requests ∧
    M.FastestTime = R.FastestTime ∧
    M.SlowestTime = R.SlowestTime ∧
    histSum M.StatusRequests =
      histSum R.StatusRequests + (if err.isNone then 1 else 0) ∧
    M.Succeeded + M.Failed = R.Succeeded + R.Failed + 1 ∧
    (R.TimedOut ≤ R.Failed → M.TimedOut ≤ M.Failed) := by
  unfold applyCounters at h
  cases err with
  | some e =>
      by_cases hcr : strContains e.msg "connection refused" = true
      · simp [hcr] at h
      · by_cases ht : e.msg = httpErrHandlerTimeoutMsg
        · rw [ht] at hcr
          simp [ht, hcr] at h
          subst h
          simp
          omega
        · simp [hcr, ht] at h
          subst h
          simp
          omega
  | none =>
      cases res with
      | none => simp at h
      | some r =>
          by_cases hs : r.StatusCode = 200
          · simp [hs] at h
            subst h
            simp [histSum_bumpStatus]
            omega
          · simp [hs] at h
            subst h
            simp [histSum_bumpStatus]
            omega

theorem updateReport_ok_spec {R : StressReport} {res : Option Response}
    {err : Option GoError} {el : Int} {R' : StressReport}
    (h : updateReport R res err el = Except.ok R') :
    R'.Requests = R.Requests + 1 ∧
    R'.Succeeded + R'.Failed = R.Succeeded + R.Failed + 1 ∧
    (R.TimedOut ≤ R.Failed → R'.TimedOut ≤ R'.Failed) ∧
    histSum R'.StatusRequests =
      histSum R.StatusRequests + (if err.isNone then 1 else 0) ∧
    R'.FastestTime =
      (if el < R.FastestTime || R.FastestTime == 0 then el else R.FastestTime) ∧
    R'.SlowestTime = (if el > R.SlowestTime then el else R.SlowestTime) := by
  obtain ⟨M, hM, hR'⟩ := updateReport_ok_decomp h
  obtain ⟨hreq, hfast, hslow, hhist, hsf, hto⟩ := applyCounters_ok_spec hM
  subst hR'
  rw [updateTimes_eq]
  simp [hreq, hfast, hslow, hhist, hsf]
  exact hto

theorem mergeAll_cons (R : StressReport) (o : Outcome) (rest : List Outcome) :
    mergeAll R (o :: rest) =
      match updateReport R o.res o.err o.elapsed with
      | Except.error p => Except.error p
      | Except.ok r => mergeAll r rest := rfl

/-! Fold invariants over a whole run. -/

theorem mergeAll_counts :
    ∀ (es : List Outcome) (R r : StressReport),
      mergeAll R es = Except.ok r →
      R.Succeeded + R.Failed = R.Requests →
      R.TimedOut ≤ R.Failed →
      r.Succeeded + r.Failed = r.Requests ∧ r.TimedOut ≤ r.Failed := by
  intro es
  induction es with
  | nil =>
      intro R r h h1 h2
      simp [mergeAll] at h
      subst h
      exact ⟨h1, h2⟩
  | cons o rest ih =>
      intro R r h h1 h2
      rw [mergeAll_cons] at h
      cases hu : updateReport R o.res o.err o.elapsed with
      | error p => rw [hu] at h; simp at h
      | ok M =>
          rw [hu] at h
          simp at h
          obtain ⟨hreq, hsf, hto, -, -, -⟩ := updateReport_ok_spec hu
          exact ih M r h (by omega) (hto h2)

theorem mergeAll_hist :
    ∀ (es : List Outcome) (R r : StressReport),
      mergeAll R es = Except.ok r →
      histSum r.StatusRequests =
        histSum R.StatusRequests +
          (es.filter (fun o => o.err.isNone)).length := by
  intro es
  induction es with
  | nil =>
      intro R r h
      simp [mergeAll] at h
      subst h
      simp
  | cons o rest ih =>
      intro R r h
      rw [mergeAll_cons] at h
      cases hu : updateReport R o.res o.err o.elapsed with
      | error p => rw [hu] at h; simp at h
      | ok M =>
          rw [hu] at h
          simp at h
          obtain ⟨-, -, -, hhist, -, -⟩ := updateReport_ok_spec hu
          rw [ih M r h, hhist]
          by_cases he : o.err.isNone = true
          all_goals simp [he, List.filter]
          all_goals omega

theorem mergeAll_slow :
    ∀ (es : List Outcome) (R r : StressReport),
      mergeAll R es = Except.ok r →
      R.SlowestTime ≤ r.SlowestTime ∧
        ∀ o ∈ es, o.elapsed ≤ r.SlowestTime := by
  intro es
  induction es with
  | nil =>
      intro R r h
      simp [mergeAll] at h
      subst h
      simp
  | cons o rest ih =>
      intro R r h
      rw [mergeAll_cons] at h
      cases hu : updateReport R o.res o.err o.elapsed with
      | error p => rw [hu] at h; simp at h
      | ok M =>
          rw [hu] at h
          simp at h
          obtain ⟨-, -, -, -, -, hslow⟩ := updateReport_ok_spec hu
          obtain ⟨hmono, hall⟩ := ih M r h
          have hRM : R.SlowestTime ≤ M.SlowestTime := by
            rw [hslow]; split <;> omega
          have hoM : o.elapsed ≤ M.SlowestTime := by
            rw [hslow]; split <;> omega
          refine ⟨le_trans hRM hmono, ?_⟩
          intro x hx
          rcases List.mem_cons.mp hx with hx | hx




          · subst hx; exact le_trans hoM hmono
          · exact hall x hx

theorem mergeAll_fast_pos :
    ∀ (es : List Outcome) (R r : StressReport),
      (∀ o ∈ es, 0 < o.elapsed) →
      0 < R.FastestTime →
      mergeAll R es = Except.ok r →
      0 < r.FastestTime ∧ r.FastestTime ≤ R.FastestTime ∧
        ∀ o ∈ es, r.FastestTime ≤ o.elapsed := by
  intro es
  induction es with
  | nil =>
      intro R r _ hR h
      simp [mergeAll] at h
      subst h
      simp [hR]
  | cons o rest ih =>
      intro R r hpos hR h
      rw [mergeAll_cons] at h
      cases hu : updateReport R o.res o.err o.elapsed with
      | error p => rw [hu] at h; simp at h
      | ok M =>
          rw [hu] at h
          simp at h
          obtain ⟨-, -, -, -, hfast, -⟩ := updateReport_ok_spec hu
          have hoe : 0 < o.elapsed := hpos o (List.mem_cons_self o rest)
          have hne : (R.FastestTime == 0) = false := by
            simp; omega
          rw [hne, Bool.or_false] at hfast
          have hM123 : 0 < M.FastestTime ∧ M.FastestTime ≤ R.FastestTime ∧
              M.FastestTime ≤ o.elapsed := by
            rw [hfast]
            by_cases hc : o.elapsed < R.FastestTime <;> simp [hc] <;> omega
          obtain ⟨hM1, hM2, hM3⟩ := hM123
          obtain ⟨h1, h2, h3⟩ :=
            ih M r (fun x hx => hpos x (List.mem_cons_of_mem o hx)) hM1 h
          refine ⟨h1, le_trans h2 hM2, ?_⟩
          intro x hx
          rcases List.mem_cons.mp hx with hx | hx
          · subst hx; exact le_trans h2 hM3
          · exact h3 x hx

/-! Concrete runs used to instantiate the theorems below. -/

def c1events : List Outcome :=
  [⟨some ⟨200⟩, none, 7⟩, ⟨none, some ⟨httpErrHandlerTimeoutMsg⟩, 3⟩,
    ⟨some ⟨500⟩, none, 4⟩]

def c1report : StressReport :=
  { Requests := 3, Failed := 2, Succeeded := 1, TimedOut := 1, TotalTime := 0
    AverageTime := 0, FastestTime := 3, SlowestTime := 7
    PercentageSucceeded := 0, PercentageFailed := 0, PercentageTimedOut := 0
    StatusRequests := [(200, 1), (500, 1)] }

def c2events : List Outcome :=
  [⟨some ⟨200⟩, none, 0⟩, ⟨some ⟨200⟩, none, 5⟩]

def c2report : StressReport :=
  { Requests := 2, Failed := 0, Succeeded := 2, TimedOut := 0, TotalTime := 0
    AverageTime := 0, FastestTime := 5, SlowestTime := 5
    PercentageSucceeded := 0, PercentageFailed := 0, PercentageTimedOut := 0
    StatusRequests := [(200, 2)] }

def c2wEvents : List Outcome :=
  [⟨some ⟨200⟩, none, 4⟩, ⟨some ⟨200⟩, none, 2⟩]

def c2wReport : StressReport :=
  { Requests := 2, Failed := 0, Succeeded := 2, TimedOut := 0, TotalTime := 0
    AverageTime := 0, FastestTime := 2, SlowestTime := 4
    PercentageSucceeded := 0, PercentageFailed := 0, PercentageTimedOut := 0
    StatusRequests := [(200, 2)] }

def refusedMsg : String :=
  "dial tcp 127.0.0.1:8080: connect: connection refused"

def c7report : StressReport :=
  { Requests := 1, Failed := 1, Succeeded := 0, TimedOut := 0, TotalTime := 0
    AverageTime := 0, FastestTime := 1, SlowestTime := 1
    PercentageSucceeded := 0, PercentageFailed := 0, PercentageTimedOut := 0
    StatusRequests := [(201, 1)] }

def c8events : List Outcome :=
  [⟨some ⟨200⟩, none, 1⟩, ⟨none, some ⟨"unexpected EOF"⟩, 2⟩,
    ⟨some ⟨404⟩, none, 3⟩]

def c8report : StressReport :=
  { Requests := 3, Failed := 2, Succeeded := 1, TimedOut := 0, TotalTime := 0
    AverageTime := 0, FastestTime := 1, SlowestTime := 3
    PercentageSucceeded := 0, PercentageFailed := 0, PercentageTimedOut := 0
    StatusRequests := [(200, 1), (404, 1)] }

def c9events : List Outcome := [⟨some ⟨200⟩, none, 2⟩]

def c9report : StressReport :=
  { Requests := 1, Failed := 0, Succeeded := 1, TimedOut := 0, TotalTime := 0
    AverageTime := 0, FastestTime := 2, SlowestTime := 2
    PercentageSucceeded := 0, PercentageFailed := 0, PercentageTimedOut := 0
    StatusRequests := [(200, 1)] }

/-! Claim theorems. -/

/-- C1: for every run that completes without a fatal abort, the merged report
satisfies Succeeded + Failed = Requests, and TimedOut is a subset of Failed
(TimedOut ≤ Failed), never a separate third category. -/
theorem C1_succeeded_failed_sum (es : List Outcome) (r : StressReport)
    (h : mergeAll NewStressReport es = Except.ok r) :
    r.Succeeded + r.Failed = r.Requests ∧ r.TimedOut ≤ r.Failed :=
  mergeAll_counts es NewStressReport r h rfl (Nat.le_refl 0)

theorem C1_succeeded_failed_sum_witness :
    c1report.Succeeded + c1report.Failed = c1report.Requests ∧
      c1report.TimedOut ≤ c1report.Failed :=
  C1_succeeded_failed_sum c1events c1report (by rfl)

/-- C2 counterexample: merging the elapsed times 0 then 5 ends with
FastestTime = 5, yet 0 was a recorded elapsed time and 5 is not ≤ 0 — the
first recorded elapsed 0 leaves the stored fastest at 0, which the second
merge then overwrites because the code treats 0 as the unset marker. -/
theorem C2_fastest_counterexample :
    mergeAll NewStressReport c2events = Except.ok c2report ∧
    c2events.map Outcome.elapsed = [0, 5] ∧
    ¬ c2report.FastestTime ≤ (0 : Int) :=
  ⟨by rfl, by rfl, by decide⟩

/-- C2 amended: once at least one outcome has been merged, every recorded
elapsed time is ≤ SlowestTime, unconditionally — also for runs containing a
0 ms elapsed time; and provided every merged elapsed time is positive,
FastestTime is ≤ every recorded elapsed time. (A recorded 0 ms elapsed resets
the stored fastest to the unset marker 0, so the minimality of FastestTime
holds only for positive elapsed sequences.) -/
theorem C2_fastest_slowest_bounds (es : List Outcome) (r : StressReport)
    (h : mergeAll NewStressReport es = Except.ok r) :
    (∀ o ∈ es, o.elapsed ≤ r.SlowestTime) ∧
    ((∀ o ∈ es, 0 < o.elapsed) → ∀ o ∈ es, r.FastestTime ≤ o.elapsed) := by
  refine ⟨(mergeAll_slow es NewStressReport r h).2, ?_⟩
  intro hpos
  cases es with
  | nil => intro o ho; simp at ho
  | cons o rest =>
      rw [mergeAll_cons] at h
      cases hu : updateReport NewStressReport o.res o.err o.elapsed with
      | error p => rw [hu] at h; simp at h
      | ok M =>
          rw [hu] at h
          simp at h
          obtain ⟨-, -, -, -, hfast, -⟩ := updateReport_ok_spec hu
          have hM : M.FastestTime = o.elapsed := by
            rw [hfast]
            simp [NewStressReport]
          have hoe : 0 < o.elapsed := hpos o (List.mem_cons_self o rest)
          obtain ⟨-, hle, hall⟩ := mergeAll_fast_pos rest M r
            (fun x hx => hpos x (List.mem_cons_of_mem o hx))
            (by rw [hM]; exact hoe) h
          rw [hM] at hle
          intro x hx
          rcases List.mem_cons.mp hx with hx | hx
          · rw [hx]; exact hle
          · exact hall x hx

theorem C2_fastest_slowest_bounds_witness :
    ((0 : Int) ≤ c2report.SlowestTime) ∧
    (c2wReport.FastestTime ≤ (2 : Int)) :=
  ⟨(C2_fastest_slowest_bounds c2events c2report (by rfl)).1
      ⟨some ⟨200⟩, none, 0⟩ (by simp [c2events]),
    (C2_fastest_slowest_bounds c2wEvents c2wReport (by rfl)).2 (by decide)
      ⟨some ⟨200⟩, none, 2⟩ (by simp [c2wEvents])⟩

/-- The error message a timed-out client.Do call actually produces: a
url.Error wrapping the context deadline, as enforced by the per-request
client.Timeout set at line 149. It never equals the server-side sentinel
message of http.ErrHandlerTimeout that line 179 compares against. -/
def clientTimeoutMsg : String :=
  "Get \"http://example.com\": context deadline exceeded (Client.Timeout exceeded while awaiting headers)"

/-- C3 (code bug): merging a real client timeout — whose error message is the
url.Error form produced by the client.Timeout deadline, not the
http.ErrHandlerTimeout sentinel tested at line 179 — increments only Failed
and Requests and leaves TimedOut at 0, whereas the claim says a timeout
increments both Failed and TimedOut. -/
theorem C3_client_timeout_not_counted :
    (updateReport NewStressReport none (some ⟨clientTimeoutMsg⟩) 3).map
        (fun r => (r.TimedOut, r.Failed, r.Requests)) =
      Except.ok (0, 1, 1) := by
  have hcr : strContains clientTimeoutMsg "connection refused" = false := by
    decide
  have hne : (clientTimeoutMsg == httpErrHandlerTimeoutMsg) = false := by
    decide
  simp [updateReport, applyCounters, hcr, hne, Except.map, updateTimes_eq,
    NewStressReport]

/-- C4 (code bug): with verbose enabled, a request whose transport attempt
fails (nil response, non-nil error) does not get recorded — the verbose log
line reads res.StatusCode from the nil response and the worker aborts with a
nil dereference instead of merging the failure and continuing. -/
theorem C4_verbose_error_nil_deref :
    runRequest true NewStressReport
        ⟨none, some ⟨"context deadline exceeded"⟩, 5⟩ =
      Except.error GoPanic.nilDeref := rfl

/-- C5: a connection-refused transport error panics inside the merge before
any counter is written — the single merge yields the panic rather than an
updated report, and a whole run hitting such an outcome aborts with that
panic, so no later outcome is merged. -/
theorem C5_connection_refused_aborts (R : StressReport) (res : Option Response)
    (e : GoError) (el : Int) (post : List Outcome)
    (h : strContains e.msg "connection refused" = true) :
    updateReport R res (some e) el = Except.error (GoPanic.panicErr e.msg) ∧
    mergeAll R (⟨res, some e, el⟩ :: post) =
      Except.error (GoPanic.panicErr e.msg) := by
  have h1 : updateReport R res (some e) el =
      Except.error (GoPanic.panicErr e.msg) := by
    simp [updateReport, applyCounters, h, Except.map]
  refine ⟨h1, ?_⟩
  rw [mergeAll_cons]
  simp only [h1]

theorem C5_connection_refused_aborts_witness :
    updateReport NewStressReport none (some ⟨refusedMsg⟩) 2 =
        Except.error (GoPanic.panicErr refusedMsg) ∧
    mergeAll NewStressReport
        [⟨none, some ⟨refusedMsg⟩, 2⟩, ⟨some ⟨200⟩, none, 1⟩] =
      Except.error (GoPanic.panicErr refusedMsg) :=
  C5_connection_refused_aborts NewStressReport none ⟨refusedMsg⟩ 2
    [⟨some ⟨200⟩, none, 1⟩] (by decide)

/-- C6: with concurrency > 0, the run spawns `concurrency` base workers each
assigned `requests / concurrency` sequential requests plus
`requests % concurrency` extra single-request workers, and the assignments
total exactly `requests`. -/
theorem C6_partition_total (requests concurrency : Nat)
    (_h : 0 < concurrency) :
    (List.replicate concurrency (requests / concurrency)).length =
        concurrency ∧
    (List.replicate (requests % concurrency) 1).length =
        requests % concurrency ∧
    (workerAssignments requests concurrency).sum = requests := by
  refine ⟨List.length_replicate _ _, List.length_replicate _ _, ?_⟩
  have hid := Nat.div_add_mod requests concurrency
  simp [workerAssignments, List.sum_append, List.sum_replicate, smul_eq_mul]
  omega

theorem C6_partition_total_witness :
    0 < 3 ∧
    ((List.replicate 3 (10 / 3)).length = 3 ∧
      (List.replicate (10 % 3) 1).length = 10 % 3 ∧
      (workerAssignments 10 3).sum = 10) :=
  ⟨by decide, C6_partition_total 10 3 (by decide)⟩

/-- C7 counterexample: a response with the 2xx status code 201 increments
Failed, not Succeeded — the code tests StatusCode != 200, not membership in
the 2xx range. -/
theorem C7_status201_counterexample :
    updateReport NewStressReport (some ⟨201⟩) none 1 = Except.ok c7report ∧
    c7report.Failed = 1 ∧ c7report.Succeeded = 0 :=
  ⟨by rfl, rfl, rfl⟩

/-- C7 amended: a request that reaches the transport increments Succeeded
exactly when its status code equals 200, and increments Failed for every
other status code — including 2xx codes other than 200 such as 201 or 204. -/
theorem C7_only_200_succeeds (R : StressReport) (code : Int) (el : Int) :
    (updateReport R (some ⟨code⟩) none el).map
        (fun r => (r.Succeeded, r.Failed)) =
      Except.ok (if code = 200 then (R.Succeeded + 1, R.Failed)
                 else (R.Succeeded, R.Failed + 1)) := by
  by_cases hc : code = 200 <;>
    simp [updateReport, applyCounters, hc, Except.map, updateTimes_eq]

/-- C8: for every run that completes without a fatal abort, the histogram
bucket counts sum to exactly the number of outcomes that reached the
transport successfully (err = none); transport errors and timeouts
contribute no bucket. -/
theorem C8_histogram_sum_transport_successes (es : List Outcome)
    (r : StressReport) (h : mergeAll NewStressReport es = Except.ok r) :
    histSum r.StatusRequests =
      (es.filter (fun o => o.err.isNone)).length := by
  have hh := mergeAll_hist es NewStressReport r h
  simpa [NewStressReport, histSum] using hh

theorem C8_histogram_sum_transport_successes_witness :
    histSum c8report.StatusRequests =
      (c8events.filter (fun o => o.err.isNone)).length :=
  C8_histogram_sum_transport_successes c8events c8report (by rfl)

/-- C9: after finalization of a non-aborted run with Requests > 0,
PercentageSucceeded + PercentageFailed = 100 (float64 arithmetic modelled
exactly over ℚ), since every merged outcome is classified as exactly one of
succeeded or failed. -/
theorem C9_percentages_sum_100 (es : List Outcome) (r : StressReport) (t : ℚ)
    (h : mergeAll NewStressReport es = Except.ok r) (hpos : 0 < r.Requests) :
    (finalize r t).PercentageSucceeded + (finalize r t).PercentageFailed =
      100 := by
  obtain ⟨hsum, -⟩ := mergeAll_counts es NewStressReport r h rfl (Nat.le_refl 0)
  have hne : ((r.Requests : ℚ)) ≠ 0 := Nat.cast_ne_zero.mpr (by omega)
  have hcast : ((r.Succeeded : ℚ)) + (r.Failed : ℚ) = (r.Requests : ℚ) := by
    exact_mod_cast hsum
  simp only [finalize]
  field_simp
  linarith

theorem C9_percentages_sum_100_witness :
    (finalize c9report 9).PercentageSucceeded +
        (finalize c9report 9).PercentageFailed = 100 :=
  C9_percentages_sum_100 c9events c9report 9 (by rfl) (by decide)

/-- C10: whenever Run returns (rather than aborting on a panic), its Go
error result is the literal nil — fatal conditions surface only as aborts,
never as a non-nil returned error. -/
theorem C10_run_returns_nil_error (es : List Outcome) (t : ℚ)
    (res : StressReport × Option String) (h : Run es t = Except.ok res) :
    res.2 = none := by
  unfold Run run at h
  cases hm : mergeAll NewStressReport es with
  | error p => rw [hm] at h; simp [Except.map] at h
  | ok r =>
      rw [hm] at h
      simp [Except.map] at h
      rw [← h]

theorem C10_run_returns_nil_error_witness :
    ((finalize NewStressReport 0, (none : Option String))).2 = none :=
  C10_run_returns_nil_error [] 0 (finalize NewStressReport 0, none) (by rfl)

end StressTest
